import Mathlib

/-!
Verification of the points/streak/reward ledger of the gamified
productivity app (PointsContext) and of the task-reset reconciliation
scan (TasksScreen.checkAndResetTasks).

The TypeScript source is shallowly embedded:

* Calendar dates: the app stores `lastDailyTaskDate` as a `YYYY-MM-DD`
  string and compares such strings for equality; we model a calendar day
  as an `Int` day number.  Full JavaScript `Date` values (used by the
  task-reset scan and by `checkAndUpdateStreak`, which normalise to
  midnight with `setHours(0,0,0,0)` and compare `getTime()` millisecond
  values) are modelled by `JSDate`: a day number plus the milliseconds
  elapsed since that day's midnight.
* Firestore: the per-user `userStats` document and the `score` field of
  the per-user `users` document are modelled by `Store`.  `updateDoc`
  rejects when the target document does not exist (NotFound) and may
  also fail for external reasons (network, permission); each remote
  write therefore takes an injected failure flag, and `statsUpdate`
  returns `none` exactly when the write throws.  Reads (`getDoc`) are
  modelled as infallible.  The informational `lastUpdated` timestamp
  field is omitted.
* React component state (`heartPoints`, `totalTasksCompleted`,
  `dailyStreak` via `useState`) is `LedgerState`, threaded explicitly.
  Inside one `async` call the captured closure variables keep their
  pre-call values, which is how the source's catch blocks revert:
  `setHeartPoints(heartPoints)` writes back the captured original.
* `auth.currentUser` is a `userPresent : Bool` argument.
* Each mutating operation additionally returns the list of observable
  ledger events it performed, in order (`LedgerEvent`), so that
  ordering claims about local-commit / persist / leaderboard-mirror
  steps can be stated.
-/

namespace HeartLedger

/-- One millisecond-count per day, `1000 * 60 * 60 * 24`, as used by the
source's day-difference computations. -/
def dayMs : Int := 86400000

/-- A JavaScript `Date`: a calendar day number plus the milliseconds
since that day's midnight. -/
structure JSDate where
  day : Int
  msOfDay : Int
  deriving DecidableEq

/-- `date.setHours(0, 0, 0, 0)`: normalise to midnight. -/
def JSDate.atMidnight (d : JSDate) : JSDate :=
  { d with msOfDay := 0 }

/-- `date.getTime()`: milliseconds since the epoch. -/
def JSDate.getTime (d : JSDate) : Int :=
  d.day * dayMs + d.msOfDay

/-- The `userStats` document (interface `UserStats`); `lastUpdated` is
informational only and omitted.  `lastDailyTaskDate` is a nullable
`YYYY-MM-DD` string, modelled as an optional day number. -/
structure UserStats where
  heartPoints : Int
  totalTasksCompleted : Int
  dailyStreak : Int
  lastDailyTaskDate : Option Int
  deriving DecidableEq

/-- The remote documents the ledger touches: the user's `userStats`
document (absent if never created or deleted concurrently) and the
`score` field of the user's `users` document (absent if that profile
document does not exist). -/
structure Store where
  stats : Option UserStats
  leaderboardScore : Option Int
  deriving DecidableEq

/-- The provider's in-memory state (the `useState` cells). -/
structure LedgerState where
  heartPoints : Int
  totalTasksCompleted : Int
  dailyStreak : Int
  deriving DecidableEq

/-- `updateDoc` on the `userStats` document: rejects (returns `none`)
when the document is absent (Firestore NotFound) or when the injected
failure flag is set; otherwise applies the partial update `f`. -/
def statsUpdate (store : Store) (failWrite : Bool) (f : UserStats → UserStats) :
    Option Store :=
  match store.stats with
  | none => none
  | some s => if failWrite then none else some { store with stats := some (f s) }

-- points configuration constants.
def POINTS_PER_TASK : Int := 20
def DAILY_TASK_BASE_POINTS : Int := 10
def STREAK_BONUS_MULTIPLIER : Int := 2

/-- `calculateDailyTaskPoints`: base points plus streak times
multiplier. -/
def calculateDailyTaskPoints (currentStreak : Int) : Int :=
  DAILY_TASK_BASE_POINTS + currentStreak * STREAK_BONUS_MULTIPLIER

/-- `syncScoreToLeaderboard`: reads the `users` document; if it exists,
writes `score := newScore`.  All errors are caught and logged inside the
function, so it never throws to its caller; the returned flag records
whether the score write actually happened. -/
def syncScoreToLeaderboard (store : Store) (failSyncWrite : Bool) (newScore : Int) :
    Store × Bool :=
  match store.leaderboardScore with
  | none => (store, false)
  | some _ =>
      if failSyncWrite then (store, false)
      else ({ store with leaderboardScore := some newScore }, true)

/-- Observable ledger events of one mutating operation, in program
order: the fresh `getDoc` read of the daily-task branch, the streak
persist, the optimistic local commit of the new balance, the balance
persist, the leaderboard mirror, and the catch-block revert of the
local balance. -/
inductive LedgerEvent where
  | freshRead : LedgerEvent
  | persistStreak (streak : Int) (day : Int) : LedgerEvent
  | localCommit (value : Int) : LedgerEvent
  | persistPoints (value : Int) : LedgerEvent
  | mirror (value : Int) : LedgerEvent
  | localRevert (value : Int) : LedgerEvent
  deriving DecidableEq

/-- The daily-task block at the top of `addPoints`'s try: when
`isDailyTask && points > 0`, re-read the stored `lastDailyTaskDate`; if
the document exists and the date is not today, bump the streak locally,
recompute the amount via `calculateDailyTaskPoints`, and persist streak
and date; if the date is already today, the amount is the flat
`DAILY_TASK_BASE_POINTS`.  Returns the resolved amount, the provider
state and store so far, whether the streak persist threw (sending
control to the catch block), and the events so far. -/
def dailyTaskPhase (st : LedgerState) (store : Store) (points : Int)
    (isDailyTask : Bool) (today : Int) (failStreakWrite : Bool) :
    Int × LedgerState × Store × Bool × List LedgerEvent :=
  if isDailyTask ∧ 0 < points then
    match store.stats with
    | some data =>
        if data.lastDailyTaskDate ≠ some today then
          let newStreak := st.dailyStreak + 1
          let st1 := { st with dailyStreak := newStreak }
          let pta := calculateDailyTaskPoints newStreak
          match statsUpdate store failStreakWrite (fun s =>
              { s with lastDailyTaskDate := some today, dailyStreak := newStreak }) with
          | some store1 =>
              (pta, st1, store1, false,
                [LedgerEvent.freshRead, LedgerEvent.persistStreak newStreak today])
          | none => (pta, st1, store, true, [LedgerEvent.freshRead])
        else
          (DAILY_TASK_BASE_POINTS, st, store, false, [LedgerEvent.freshRead])
    | none => (points, st, store, false, [LedgerEvent.freshRead])
  else (points, st, store, false, [])

/-- The tail of `addPoints`'s try: clamp the captured balance plus the
resolved amount at zero, commit it to the local cache, persist it, and
mirror it to the leaderboard.  A throw from the `updateDoc` lands in
the catch block, which re-installs the captured pre-call balance
`origHeartPoints`. -/
def commitPersistMirror (origHeartPoints pta : Int) (st1 : LedgerState)
    (store1 : Store) (evs : List LedgerEvent) (failPointsWrite failSyncWrite : Bool) :
    LedgerState × Store × List LedgerEvent :=
  let newPoints := max 0 (origHeartPoints + pta)
  let st2 := { st1 with heartPoints := newPoints }
  match statsUpdate store1 failPointsWrite
      (fun s => { s with heartPoints := newPoints }) with
  | none =>
      ({ st2 with heartPoints := origHeartPoints }, store1,
        evs ++ [LedgerEvent.localCommit newPoints,
          LedgerEvent.localRevert origHeartPoints])
  | some store2 =>
      match syncScoreToLeaderboard store2 failSyncWrite newPoints with
      | (store3, mirrored) =>
          (st2, store3,
            evs ++ [LedgerEvent.localCommit newPoints,
                LedgerEvent.persistPoints newPoints] ++
              (if mirrored then [LedgerEvent.mirror newPoints] else []))

/-- `addPoints(points, isDailyTask)`.  Returns the provider state and
store after the call together with the event trace: the daily-task
block (`dailyTaskPhase`) resolves the amount to add, then the balance
is committed locally, persisted, and mirrored (`commitPersistMirror`).
If the streak persist threw, the catch block re-installs the captured
balance and the rest of the try does not run. -/
def addPoints (st : LedgerState) (store : Store) (points : Int)
    (isDailyTask : Bool) (userPresent : Bool) (today : Int)
    (failStreakWrite failPointsWrite failSyncWrite : Bool) :
    LedgerState × Store × List LedgerEvent :=
  if userPresent then
    match dailyTaskPhase st store points isDailyTask today failStreakWrite with
    | (pta, st1, store1, aborted, evs) =>
        if aborted then
          ({ st1 with heartPoints := st.heartPoints }, store1,
            evs ++ [LedgerEvent.localRevert st.heartPoints])
        else
          commitPersistMirror st.heartPoints pta st1 store1 evs
            failPointsWrite failSyncWrite
  else (st, store, [])

/-- `subtractPoints(points)`: refuses when the captured balance is below
`points`; otherwise commits the decremented balance locally, persists
it, mirrors it, and returns `true`.  A throw from `updateDoc` lands in
the catch block, which re-installs the captured balance and returns
`false`. -/
def subtractPoints (st : LedgerState) (store : Store) (points : Int)
    (userPresent : Bool) (failPointsWrite failSyncWrite : Bool) :
    Bool × LedgerState × Store × List LedgerEvent :=
  if userPresent then
    if st.heartPoints < points then (false, st, store, [])
    else
      let newPoints := st.heartPoints - points
      let st1 := { st with heartPoints := newPoints }
      match statsUpdate store failPointsWrite
          (fun s => { s with heartPoints := newPoints }) with
      | none =>
          (false, { st1 with heartPoints := st.heartPoints }, store,
            [LedgerEvent.localCommit newPoints, LedgerEvent.localRevert st.heartPoints])
      | some store1 =>
          match syncScoreToLeaderboard store1 failSyncWrite newPoints with
          | (store2, mirrored) =>
              (true, st1, store2,
                [LedgerEvent.localCommit newPoints, LedgerEvent.persistPoints newPoints] ++
                  (if mirrored then [LedgerEvent.mirror newPoints] else []))
  else (false, st, store, [])

/-- `incrementTasksCompleted()`: bumps the lifetime counter locally,
persists it, and on a throw re-installs the captured counter. -/
def incrementTasksCompleted (st : LedgerState) (store : Store)
    (userPresent failWrite : Bool) : LedgerState × Store :=
  if userPresent then
    let newTotal := st.totalTasksCompleted + 1
    let st1 := { st with totalTasksCompleted := newTotal }
    match statsUpdate store failWrite
        (fun s => { s with totalTasksCompleted := newTotal }) with
    | none => ({ st1 with totalTasksCompleted := st.totalTasksCompleted }, store)
    | some store1 => (st1, store1)
  else (st, store)

/-- `checkAndUpdateStreak(currentStreak, lastDate)`: with no stored date
or no signed-in user the streak is returned unchanged.  Otherwise both
dates are normalised to midnight, the floored day difference is taken,
and a gap of more than one day resets the streak to zero and persists
the reset.  The `updateDoc` of the reset is not guarded by a local
try/catch, so a throw propagates to the caller, modelled as `none`. -/
def checkAndUpdateStreak (currentStreak : Int) (lastDate : Option Int)
    (userPresent : Bool) (today : JSDate) (failWrite : Bool) (store : Store) :
    Option (Int × Store) :=
  match lastDate with
  | none => some (currentStreak, store)
  | some lastDay =>
      if userPresent then
        let todayMid := today.atMidnight
        let lastTaskDate : JSDate := JSDate.atMidnight { day := lastDay, msOfDay := 0 }
        let daysDifference := (todayMid.getTime - lastTaskDate.getTime) / dayMs
        if daysDifference > 1 then
          match statsUpdate store failWrite (fun s => { s with dailyStreak := 0 }) with
          | none => none
          | some store1 => some (0, store1)
        else some (currentStreak, store)
      else some (currentStreak, store)

/-- One mutating call issued to the ledger, with all of its ambient
inputs (auth presence, today's date, injected write failures). -/
inductive LedgerOp where
  | add (points : Int) (isDailyTask : Bool) (userPresent : Bool) (today : Int)
      (failStreakWrite failPointsWrite failSyncWrite : Bool) : LedgerOp
  | sub (points : Int) (userPresent : Bool)
      (failPointsWrite failSyncWrite : Bool) : LedgerOp

/-- Run one ledger call against the current provider state and store. -/
def stepOp (cfg : LedgerState × Store) (op : LedgerOp) : LedgerState × Store :=
  match op with
  | .add p d u t f1 f2 f3 =>
      match addPoints cfg.1 cfg.2 p d u t f1 f2 f3 with
      | (st, store, _) => (st, store)
  | .sub p u f2 f3 =>
      match subtractPoints cfg.1 cfg.2 p u f2 f3 with
      | (_, st, store, _) => (st, store)

/-- Run a sequence of ledger calls. -/
def runOps (cfg : LedgerState × Store) (ops : List LedgerOp) : LedgerState × Store :=
  ops.foldl stepOp cfg

/-- Helper for `commitOnlyAfterPersist`: the flag records whether a
balance persist has already occurred. -/
def commitOnlyAfterPersistAux : Bool → List LedgerEvent → Bool
  | _, [] => true
  | seenPersist, e :: rest =>
      match e with
      | .persistPoints _ => commitOnlyAfterPersistAux true rest
      | .localCommit _ => seenPersist && commitOnlyAfterPersistAux seenPersist rest
      | _ => commitOnlyAfterPersistAux seenPersist rest

/-- The ordering property claimed by the spec: the local cache is never
updated with the new balance before the balance persist happened. -/
def commitOnlyAfterPersist (evs : List LedgerEvent) : Bool :=
  commitOnlyAfterPersistAux false evs

/-- Helper for `mirrorOnlyAfterPersist`. -/
def mirrorOnlyAfterPersistAux : Bool → List LedgerEvent → Bool
  | _, [] => true
  | seenPersist, e :: rest =>
      match e with
      | .persistPoints _ => mirrorOnlyAfterPersistAux true rest
      | .mirror _ => seenPersist && mirrorOnlyAfterPersistAux seenPersist rest
      | _ => mirrorOnlyAfterPersistAux seenPersist rest

/-- Every leaderboard mirror is preceded by a successful balance
persist. -/
def mirrorOnlyAfterPersist (evs : List LedgerEvent) : Bool :=
  mirrorOnlyAfterPersistAux false evs

/-- Helper for `persistOnlyAfterCommit`. -/
def persistOnlyAfterCommitAux : Bool → List LedgerEvent → Bool
  | _, [] => true
  | seenCommit, e :: rest =>
      match e with
      | .localCommit _ => persistOnlyAfterCommitAux true rest
      | .persistPoints _ => seenCommit && persistOnlyAfterCommitAux seenCommit rest
      | _ => persistOnlyAfterCommitAux seenCommit rest

/-- Every balance persist is preceded by a local commit: the code
commits the new balance to the in-memory cache first and persists
afterwards. -/
def persistOnlyAfterCommit (evs : List LedgerEvent) : Bool :=
  persistOnlyAfterCommitAux false evs

/-- Whether a successful balance persist occurs in the trace. -/
def containsPersist (evs : List LedgerEvent) : Bool :=
  evs.any fun e => match e with | .persistPoints _ => true | _ => false

/-- Whether a leaderboard mirror occurs in the trace. -/
def containsMirror (evs : List LedgerEvent) : Bool :=
  evs.any fun e => match e with | .mirror _ => true | _ => false

end HeartLedger

namespace TasksScreen

open HeartLedger (dayMs JSDate LedgerState)

/-- `repeatType` of a task. -/
inductive RepeatType where
  | DAILY : RepeatType
  | WEEKLY : RepeatType
  | CUSTOM : RepeatType
  deriving DecidableEq

/-- The fields of the `tasks` documents that the reset scan reads:
`completed`, `repeatType`, and the nullable ISO timestamp
`lastCompletedDate`. -/
structure Task where
  completed : Bool
  repeatType : RepeatType
  lastCompletedDate : Option JSDate
  deriving DecidableEq

/-- The per-task body of `checkAndResetTasks`: a completed task with a
`lastCompletedDate` is reset (completed cleared, date nulled) when it is
DAILY and was last completed on a different calendar day
(`toDateString` comparison), or WEEKLY and the floored elapsed-day count
since `lastCompletedDate` is at least 7.  CUSTOM tasks are never
reset. -/
def resetTask (now : JSDate) (task : Task) : Task :=
  if task.completed then
    match task.lastCompletedDate with
    | some lastCompleted =>
        let shouldReset :=
          match task.repeatType with
          | RepeatType.DAILY => decide (lastCompleted.day ≠ now.day)
          | RepeatType.WEEKLY =>
              decide ((now.getTime - lastCompleted.getTime) / dayMs ≥ 7)
          | RepeatType.CUSTOM => false
        if shouldReset then { task with completed := false, lastCompletedDate := none }
        else task
    | none => task
  else task

/-- `checkAndResetTasks`: scans the user's tasks and resets each per
`resetTask`.  The screen holds the points context, but the scan never
calls any of its mutators, so the ledger state is returned untouched. -/
def checkAndResetTasks (now : JSDate) (ledger : LedgerState) (tasks : List Task) :
    LedgerState × List Task :=
  (ledger, tasks.map (resetTask now))

end TasksScreen

namespace HeartLedger

/- Branch equations for the embedded operations. -/

theorem dailyTaskPhase_not_daily (st : LedgerState) (store : Store) (p : Int)
    (d : Bool) (t : Int) (f1 : Bool) (h : ¬(d = true ∧ 0 < p)) :
    dailyTaskPhase st store p d t f1 = (p, st, store, false, []) := by
  unfold dailyTaskPhase
  rw [if_neg]
  simpa using h

theorem dailyTaskPhase_no_doc (st : LedgerState) (store : Store) (p : Int)
    (t : Int) (f1 : Bool) (hp : 0 < p) (hst : store.stats = none) :
    dailyTaskPhase st store p true t f1 = (p, st, store, false, [LedgerEvent.freshRead]) := by
  simp [dailyTaskPhase, hst, hp]

theorem dailyTaskPhase_same_day (st : LedgerState) (store : Store) (p : Int)
    (t : Int) (f1 : Bool) (data : UserStats) (hp : 0 < p)
    (hst : store.stats = some data) (hlast : data.lastDailyTaskDate = some t) :
    dailyTaskPhase st store p true t f1 =
      (DAILY_TASK_BASE_POINTS, st, store, false, [LedgerEvent.freshRead]) := by
  simp [dailyTaskPhase, hst, hlast, hp]

theorem dailyTaskPhase_new_day (st : LedgerState) (store : Store) (p : Int)
    (t : Int) (data : UserStats) (hp : 0 < p)
    (hst : store.stats = some data) (hlast : data.lastDailyTaskDate ≠ some t) :
    dailyTaskPhase st store p true t false =
      (calculateDailyTaskPoints (st.dailyStreak + 1),
        { st with dailyStreak := st.dailyStreak + 1 },
        { store with stats := some { data with
            lastDailyTaskDate := some t, dailyStreak := st.dailyStreak + 1 } },
        false,
        [LedgerEvent.freshRead, LedgerEvent.persistStreak (st.dailyStreak + 1) t]) := by
  simp [dailyTaskPhase, statsUpdate, hst, hlast, hp]

theorem dailyTaskPhase_new_day_write_throws (st : LedgerState) (store : Store) (p : Int)
    (t : Int) (data : UserStats) (hp : 0 < p)
    (hst : store.stats = some data) (hlast : data.lastDailyTaskDate ≠ some t) :
    dailyTaskPhase st store p true t true =
      (calculateDailyTaskPoints (st.dailyStreak + 1),
        { st with dailyStreak := st.dailyStreak + 1 },
        store, true, [LedgerEvent.freshRead]) := by
  simp [dailyTaskPhase, statsUpdate, hst, hlast, hp]

theorem dailyTaskPhase_hp (st : LedgerState) (store : Store) (p : Int)
    (d : Bool) (t : Int) (f1 : Bool) :
    (dailyTaskPhase st store p d t f1).2.1.heartPoints = st.heartPoints := by
  by_cases hdp : d = true ∧ 0 < p
  · obtain ⟨hd, hp⟩ := hdp
    subst hd
    cases hst : store.stats with
    | none => rw [dailyTaskPhase_no_doc st store p t f1 hp hst]
    | some data =>
        by_cases hlast : data.lastDailyTaskDate = some t
        · rw [dailyTaskPhase_same_day st store p t f1 data hp hst hlast]
        · cases f1 with
          | false => rw [dailyTaskPhase_new_day st store p t data hp hst hlast]
          | true => rw [dailyTaskPhase_new_day_write_throws st store p t data hp hst hlast]
  · rw [dailyTaskPhase_not_daily st store p d t f1 hdp]

theorem commitPersistMirror_write_throws (orig pta : Int) (st1 : LedgerState)
    (store1 : Store) (evs : List LedgerEvent) (f2 f3 : Bool)
    (h : store1.stats = none ∨ f2 = true) :
    commitPersistMirror orig pta st1 store1 evs f2 f3 =
      ({ st1 with heartPoints := orig }, store1,
        evs ++ [LedgerEvent.localCommit (max 0 (orig + pta)),
          LedgerEvent.localRevert orig]) := by
  rcases h with h | h
  · simp [commitPersistMirror, statsUpdate, h]
  · subst h
    unfold commitPersistMirror statsUpdate
    cases store1.stats <;> simp

theorem commitPersistMirror_success (orig pta : Int) (st1 : LedgerState)
    (store1 : Store) (evs : List LedgerEvent) (f3 : Bool) (data1 : UserStats)
    (hst : store1.stats = some data1) :
    commitPersistMirror orig pta st1 store1 evs false f3 =
      ({ st1 with heartPoints := max 0 (orig + pta) },
        (syncScoreToLeaderboard
          { store1 with stats := some { data1 with heartPoints := max 0 (orig + pta) } }
          f3 (max 0 (orig + pta))).1,
        evs ++ [LedgerEvent.localCommit (max 0 (orig + pta)),
            LedgerEvent.persistPoints (max 0 (orig + pta))] ++
          (if (syncScoreToLeaderboard
              { store1 with stats := some { data1 with heartPoints := max 0 (orig + pta) } }
              f3 (max 0 (orig + pta))).2 then
            [LedgerEvent.mirror (max 0 (orig + pta))] else [])) := by
  simp [commitPersistMirror, statsUpdate, hst]

theorem syncScoreToLeaderboard_mirrors (store : Store) (score old : Int)
    (hlb : store.leaderboardScore = some old) :
    syncScoreToLeaderboard store false score =
      ({ store with leaderboardScore := some score }, true) := by
  simp [syncScoreToLeaderboard, hlb]

theorem syncScoreToLeaderboard_skips (store : Store) (score : Int) (f3 : Bool)
    (h : store.leaderboardScore = none ∨ f3 = true) :
    syncScoreToLeaderboard store f3 score = (store, false) := by
  rcases h with h | h
  · simp [syncScoreToLeaderboard, h]
  · subst h
    unfold syncScoreToLeaderboard
    cases store.leaderboardScore <;> simp

theorem commitPersistMirror_hp (orig pta : Int) (st1 : LedgerState) (store1 : Store)
    (evs : List LedgerEvent) (f2 f3 : Bool) :
    (commitPersistMirror orig pta st1 store1 evs f2 f3).1.heartPoints = orig ∨
      (commitPersistMirror orig pta st1 store1 evs f2 f3).1.heartPoints =
        max 0 (orig + pta) := by
  cases f2 with
  | true => left; rw [commitPersistMirror_write_throws orig pta st1 store1 evs true f3 (Or.inr rfl)]
  | false =>
      cases hst : store1.stats with
      | none =>
          left
          rw [commitPersistMirror_write_throws orig pta st1 store1 evs false f3 (Or.inl hst)]
      | some data1 =>
          right
          rw [commitPersistMirror_success orig pta st1 store1 evs f3 data1 hst]

theorem addPoints_no_user (st : LedgerState) (store : Store) (p : Int) (d : Bool)
    (t : Int) (f1 f2 f3 : Bool) :
    addPoints st store p d false t f1 f2 f3 = (st, store, []) := by
  simp [addPoints]

theorem addPoints_user (st : LedgerState) (store : Store) (p : Int) (d : Bool)
    (t : Int) (f1 f2 f3 : Bool) :
    addPoints st store p d true t f1 f2 f3 =
      (if (dailyTaskPhase st store p d t f1).2.2.2.1 then
        ({ (dailyTaskPhase st store p d t f1).2.1 with heartPoints := st.heartPoints },
          (dailyTaskPhase st store p d t f1).2.2.1,
          (dailyTaskPhase st store p d t f1).2.2.2.2 ++
            [LedgerEvent.localRevert st.heartPoints])
      else
        commitPersistMirror st.heartPoints (dailyTaskPhase st store p d t f1).1
          (dailyTaskPhase st store p d t f1).2.1 (dailyTaskPhase st store p d t f1).2.2.1
          (dailyTaskPhase st store p d t f1).2.2.2.2 f2 f3) := rfl

theorem addPoints_hp_nonneg (st : LedgerState) (store : Store) (p : Int) (d u : Bool)
    (t : Int) (f1 f2 f3 : Bool) (h : 0 ≤ st.heartPoints) :
    0 ≤ (addPoints st store p d u t f1 f2 f3).1.heartPoints := by
  cases u with
  | false => rw [addPoints_no_user]; exact h
  | true =>
      rw [addPoints_user]
      split
      · simpa using h
      · rcases commitPersistMirror_hp st.heartPoints (dailyTaskPhase st store p d t f1).1
            (dailyTaskPhase st store p d t f1).2.1 (dailyTaskPhase st store p d t f1).2.2.1
            (dailyTaskPhase st store p d t f1).2.2.2.2 f2 f3 with hc | hc <;> rw [hc]
        · exact h
        · exact le_max_left 0 _

theorem subtractPoints_no_user (st : LedgerState) (store : Store) (p : Int)
    (f2 f3 : Bool) : subtractPoints st store p false f2 f3 = (false, st, store, []) := by
  simp [subtractPoints]

theorem subtractPoints_insufficient (st : LedgerState) (store : Store) (p : Int)
    (f2 f3 : Bool) (h : st.heartPoints < p) :
    subtractPoints st store p true f2 f3 = (false, st, store, []) := by
  simp [subtractPoints, h]

theorem subtractPoints_write_throws (st : LedgerState) (store : Store) (p : Int)
    (f2 f3 : Bool) (h : ¬st.heartPoints < p) (hfail : store.stats = none ∨ f2 = true) :
    subtractPoints st store p true f2 f3 =
      (false, st, store,
        [LedgerEvent.localCommit (st.heartPoints - p),
          LedgerEvent.localRevert st.heartPoints]) := by
  rcases hfail with hf | hf
  · simp [subtractPoints, statsUpdate, h, hf]
  · subst hf
    unfold subtractPoints statsUpdate
    cases store.stats <;> simp [h]

theorem subtractPoints_success (st : LedgerState) (store : Store) (p : Int)
    (f3 : Bool) (data : UserStats) (h : ¬st.heartPoints < p)
    (hst : store.stats = some data) :
    subtractPoints st store p true false f3 =
      (true, { st with heartPoints := st.heartPoints - p },
        (syncScoreToLeaderboard
          { store with stats := some { data with heartPoints := st.heartPoints - p } }
          f3 (st.heartPoints - p)).1,
        [LedgerEvent.localCommit (st.heartPoints - p),
            LedgerEvent.persistPoints (st.heartPoints - p)] ++
          (if (syncScoreToLeaderboard
              { store with stats := some { data with heartPoints := st.heartPoints - p } }
              f3 (st.heartPoints - p)).2 then
            [LedgerEvent.mirror (st.heartPoints - p)] else [])) := by
  simp [subtractPoints, statsUpdate, h, hst]

theorem subtractPoints_hp_nonneg (st : LedgerState) (store : Store) (p : Int)
    (u f2 f3 : Bool) (h : 0 ≤ st.heartPoints) :
    0 ≤ (subtractPoints st store p u f2 f3).2.1.heartPoints := by
  cases u with
  | false => rw [subtractPoints_no_user]; exact h
  | true =>
      by_cases hlt : st.heartPoints < p
      · rw [subtractPoints_insufficient st store p f2 f3 hlt]; exact h
      · cases f2 with
        | true => rw [subtractPoints_write_throws st store p true f3 hlt (Or.inr rfl)]; exact h
        | false =>
            cases hst : store.stats with
            | none =>
                rw [subtractPoints_write_throws st store p false f3 hlt (Or.inl hst)]
                exact h
            | some data =>
                rw [subtractPoints_success st store p f3 data hlt hst]
                simp only
                omega

theorem stepOp_hp_nonneg (cfg : LedgerState × Store) (op : LedgerOp)
    (h : 0 ≤ cfg.1.heartPoints) : 0 ≤ (stepOp cfg op).1.heartPoints := by
  cases op with
  | add p d u t f1 f2 f3 =>
      simpa [stepOp] using addPoints_hp_nonneg cfg.1 cfg.2 p d u t f1 f2 f3 h
  | sub p u f2 f3 =>
      simpa [stepOp] using subtractPoints_hp_nonneg cfg.1 cfg.2 p u f2 f3 h

theorem runOps_hp_nonneg (ops : List LedgerOp) (cfg : LedgerState × Store)
    (h : 0 ≤ cfg.1.heartPoints) : 0 ≤ (runOps cfg ops).1.heartPoints := by
  induction ops generalizing cfg with
  | nil => simpa [runOps] using h
  | cons op rest ih =>
      have hstep := ih (stepOp cfg op) (stepOp_hp_nonneg cfg op h)
      simpa [runOps, List.foldl_cons] using hstep

theorem incrementTasksCompleted_ttc_on_throw (st : LedgerState) (store : Store)
    (u : Bool) :
    (incrementTasksCompleted st store u true).1.totalTasksCompleted =
      st.totalTasksCompleted := by
  cases u <;> [skip; cases hst : store.stats] <;>
    simp [incrementTasksCompleted, statsUpdate, *]

end HeartLedger

namespace HeartLedger


theorem commitPersistMirror_props (orig pta : Int) (st1 : LedgerState) (store1 : Store)
    (evs : List LedgerEvent) (f2 f3 : Bool)
    (hevs : evs = [] ∨ evs = [LedgerEvent.freshRead] ∨
      ∃ ns td, evs = [LedgerEvent.freshRead, LedgerEvent.persistStreak ns td]) :
    mirrorOnlyAfterPersist (commitPersistMirror orig pta st1 store1 evs f2 f3).2.2 = true ∧
      persistOnlyAfterCommit (commitPersistMirror orig pta st1 store1 evs f2 f3).2.2 = true ∧
      (containsPersist (commitPersistMirror orig pta st1 store1 evs f2 f3).2.2 = false →
        (commitPersistMirror orig pta st1 store1 evs f2 f3).1.heartPoints = orig ∧
          containsMirror (commitPersistMirror orig pta st1 store1 evs f2 f3).2.2 = false) := by
  have hthrow : store1.stats = none ∨ f2 = true →
      commitPersistMirror orig pta st1 store1 evs f2 f3 =
        ({ st1 with heartPoints := orig }, store1,
          evs ++ [LedgerEvent.localCommit (max 0 (orig + pta)),
            LedgerEvent.localRevert orig]) :=
    commitPersistMirror_write_throws orig pta st1 store1 evs f2 f3
  cases f2 with
  | true =>
      rw [hthrow (Or.inr rfl)]
      rcases hevs with h | h | ⟨ns, td, h⟩ <;> subst h <;>
        simp [mirrorOnlyAfterPersist, mirrorOnlyAfterPersistAux,
          persistOnlyAfterCommit, persistOnlyAfterCommitAux, containsPersist, containsMirror]
  | false =>
      cases hst : store1.stats with
      | none =>
          rw [hthrow (Or.inl hst)]
          rcases hevs with h | h | ⟨ns, td, h⟩ <;> subst h <;>
            simp [mirrorOnlyAfterPersist, mirrorOnlyAfterPersistAux,
              persistOnlyAfterCommit, persistOnlyAfterCommitAux, containsPersist, containsMirror]
      | some data1 =>
          rw [commitPersistMirror_success orig pta st1 store1 evs f3 data1 hst]
          rcases hsy : syncScoreToLeaderboard
              { store1 with stats := some { data1 with heartPoints := max 0 (orig + pta) } }
              f3 (max 0 (orig + pta)) with ⟨s3, m⟩
          cases m <;> rcases hevs with h | h | ⟨ns, td, h⟩ <;> subst h <;>
            simp [mirrorOnlyAfterPersist, mirrorOnlyAfterPersistAux,
              persistOnlyAfterCommit, persistOnlyAfterCommitAux, containsPersist, containsMirror]



theorem addPoints_order_props (st : LedgerState) (store : Store) (p : Int)
    (d u : Bool) (t : Int) (f1 f2 f3 : Bool) :
    mirrorOnlyAfterPersist (addPoints st store p d u t f1 f2 f3).2.2 = true ∧
      persistOnlyAfterCommit (addPoints st store p d u t f1 f2 f3).2.2 = true ∧
      (containsPersist (addPoints st store p d u t f1 f2 f3).2.2 = false →
        (addPoints st store p d u t f1 f2 f3).1.heartPoints = st.heartPoints ∧
          containsMirror (addPoints st store p d u t f1 f2 f3).2.2 = false) := by
  cases u with
  | false =>
      simp [addPoints_no_user, mirrorOnlyAfterPersist, mirrorOnlyAfterPersistAux,
        persistOnlyAfterCommit, persistOnlyAfterCommitAux, containsPersist, containsMirror]
  | true =>
      rw [addPoints_user]
      by_cases hdp : d = true ∧ 0 < p
      · obtain ⟨hd, hp0⟩ := hdp
        subst hd
        cases hst : store.stats with
        | none =>
            rw [dailyTaskPhase_no_doc st store p t f1 hp0 hst]
            simpa using commitPersistMirror_props st.heartPoints p st store
              [LedgerEvent.freshRead] f2 f3 (Or.inr (Or.inl rfl))
        | some data =>
            by_cases hlast : data.lastDailyTaskDate = some t
            · rw [dailyTaskPhase_same_day st store p t f1 data hp0 hst hlast]
              simpa using commitPersistMirror_props st.heartPoints DAILY_TASK_BASE_POINTS
                st store [LedgerEvent.freshRead] f2 f3 (Or.inr (Or.inl rfl))
            · cases f1 with
              | true =>
                  rw [dailyTaskPhase_new_day_write_throws st store p t data hp0 hst hlast]
                  simp [mirrorOnlyAfterPersist, mirrorOnlyAfterPersistAux,
                    persistOnlyAfterCommit, persistOnlyAfterCommitAux, containsPersist,
                    containsMirror]
              | false =>
                  rw [dailyTaskPhase_new_day st store p t data hp0 hst hlast]
                  simpa using commitPersistMirror_props st.heartPoints
                    (calculateDailyTaskPoints (st.dailyStreak + 1))
                    { st with dailyStreak := st.dailyStreak + 1 }
                    { store with stats := some { data with
                        lastDailyTaskDate := some t, dailyStreak := st.dailyStreak + 1 } }
                    [LedgerEvent.freshRead, LedgerEvent.persistStreak (st.dailyStreak + 1) t]
                    f2 f3 (Or.inr (Or.inr ⟨st.dailyStreak + 1, t, rfl⟩))
      · rw [dailyTaskPhase_not_daily st store p d t f1 hdp]
        simpa using commitPersistMirror_props st.heartPoints p st store [] f2 f3 (Or.inl rfl)

theorem subtractPoints_order_props (st : LedgerState) (store : Store) (p : Int)
    (u : Bool) (f2 f3 : Bool) :
    mirrorOnlyAfterPersist (subtractPoints st store p u f2 f3).2.2.2 = true ∧
      persistOnlyAfterCommit (subtractPoints st store p u f2 f3).2.2.2 = true ∧
      (containsPersist (subtractPoints st store p u f2 f3).2.2.2 = false →
        (subtractPoints st store p u f2 f3).2.1.heartPoints = st.heartPoints ∧
          containsMirror (subtractPoints st store p u f2 f3).2.2.2 = false) := by
  cases u with
  | false =>
      simp [subtractPoints_no_user, mirrorOnlyAfterPersist, mirrorOnlyAfterPersistAux,
        persistOnlyAfterCommit, persistOnlyAfterCommitAux, containsPersist, containsMirror]
  | true =>
      by_cases hlt : st.heartPoints < p
      · rw [subtractPoints_insufficient st store p f2 f3 hlt]
        simp [mirrorOnlyAfterPersist, mirrorOnlyAfterPersistAux,
          persistOnlyAfterCommit, persistOnlyAfterCommitAux, containsPersist, containsMirror]
      · cases f2 with
        | true =>
            rw [subtractPoints_write_throws st store p true f3 hlt (Or.inr rfl)]
            simp [mirrorOnlyAfterPersist, mirrorOnlyAfterPersistAux,
              persistOnlyAfterCommit, persistOnlyAfterCommitAux, containsPersist, containsMirror]
        | false =>
            cases hst : store.stats with
            | none =>
                rw [subtractPoints_write_throws st store p false f3 hlt (Or.inl hst)]
                simp [mirrorOnlyAfterPersist, mirrorOnlyAfterPersistAux,
                  persistOnlyAfterCommit, persistOnlyAfterCommitAux, containsPersist, containsMirror]
            | some data =>
                rw [subtractPoints_success st store p f3 data hlt hst]
                rcases hsy : syncScoreToLeaderboard
                    { store with stats := some { data with heartPoints := st.heartPoints - p } }
                    f3 (st.heartPoints - p) with ⟨s3, m⟩
                cases m <;>
                  simp [mirrorOnlyAfterPersist, mirrorOnlyAfterPersistAux,
                    persistOnlyAfterCommit, persistOnlyAfterCommitAux, containsPersist,
                    containsMirror]


end HeartLedger

/-! ## Claim theorems -/

namespace HeartLedger

/-- Claim C1: starting from a non-negative balance, every sequence of
`addPoints` / `subtractPoints` calls (any arguments, any auth state, any
injected write failures) leaves the observed in-memory `heartPoints`
non-negative: `addPoints` clamps the new balance at zero (also for
negative undo deltas) and `subtractPoints` refuses any deduction larger
than the current balance.  Since the sequence is arbitrary, this covers
the balance observed after each completed operation of a longer run. -/
theorem heartPoints_never_negative (ops : List LedgerOp) (st : LedgerState)
    (store : Store) (h : 0 ≤ st.heartPoints) :
    0 ≤ (runOps (st, store) ops).1.heartPoints :=
  runOps_hp_nonneg ops (st, store) h

/-- Witness for `heartPoints_never_negative` at a concrete run. -/
theorem heartPoints_never_negative_witness :
    0 ≤ (runOps (⟨0, 0, 0⟩, ⟨some ⟨0, 0, 0, none⟩, some 0⟩)
      [LedgerOp.add 20 true true 1 false false false,
        LedgerOp.sub 200 true false false,
        LedgerOp.add (-20) false true 1 false false false]).1.heartPoints :=
  heartPoints_never_negative _ _ _ (by decide)

/-- Claim C2 counterexample: `addPoints(50, false)` from balance 100
with every write succeeding produces the event trace local-commit 150,
persist 150, mirror 150 — the local in-memory cache is updated with the
new value BEFORE the persist step, so the claimed
(b)-persist-before-(d)-local-commit order is violated. -/
theorem addPoints_commits_locally_before_persisting :
    (addPoints ⟨100, 0, 0⟩ ⟨some ⟨100, 0, 0, none⟩, some 100⟩ 50 false true 0
        false false false).2.2 =
      [LedgerEvent.localCommit 150, LedgerEvent.persistPoints 150,
        LedgerEvent.mirror 150] ∧
      commitOnlyAfterPersist
        (addPoints ⟨100, 0, 0⟩ ⟨some ⟨100, 0, 0, none⟩, some 100⟩ 50 false true 0
          false false false).2.2 = false := by
  decide

/-- Claim C2 (amended): within every single mutating ledger operation
(`addPoints`, `subtractPoints`) the new balance is committed to the
local in-memory cache BEFORE the persist step (every persist is preceded
by the local commit), the leaderboard mirror runs only after a
successful persist, and if the persist fails then the mirror does not
run with the new value and the local cache ends at its pre-operation
balance (the optimistic commit is reverted by the catch block). -/
theorem ledger_write_order (st : LedgerState) (store : Store) (p : Int)
    (d u : Bool) (t : Int) (f1 f2 f3 : Bool) :
    (mirrorOnlyAfterPersist (addPoints st store p d u t f1 f2 f3).2.2 = true ∧
      persistOnlyAfterCommit (addPoints st store p d u t f1 f2 f3).2.2 = true ∧
      (containsPersist (addPoints st store p d u t f1 f2 f3).2.2 = false →
        (addPoints st store p d u t f1 f2 f3).1.heartPoints = st.heartPoints ∧
          containsMirror (addPoints st store p d u t f1 f2 f3).2.2 = false)) ∧
    (mirrorOnlyAfterPersist (subtractPoints st store p u f2 f3).2.2.2 = true ∧
      persistOnlyAfterCommit (subtractPoints st store p u f2 f3).2.2.2 = true ∧
      (containsPersist (subtractPoints st store p u f2 f3).2.2.2 = false →
        (subtractPoints st store p u f2 f3).2.1.heartPoints = st.heartPoints ∧
          containsMirror (subtractPoints st store p u f2 f3).2.2.2 = false)) :=
  ⟨addPoints_order_props st store p d u t f1 f2 f3,
    subtractPoints_order_props st store p u f2 f3⟩

/-- Witness for `ledger_write_order` at a concrete failing-persist input. -/
theorem ledger_write_order_witness :
    (addPoints ⟨100, 0, 0⟩ ⟨some ⟨100, 0, 0, none⟩, some 100⟩ 50 false true 0
        false true false).1.heartPoints = 100 ∧
      containsMirror (addPoints ⟨100, 0, 0⟩ ⟨some ⟨100, 0, 0, none⟩, some 100⟩
        50 false true 0 false true false).2.2 = false :=
  (ledger_write_order ⟨100, 0, 0⟩ ⟨some ⟨100, 0, 0, none⟩, some 100⟩ 50 false true 0
    false true false).1.2.2 (by decide)

/-- Claim C3 counterexample: when the streak persist inside a daily-task
`addPoints` fails (streak 2, stored last date 99, today 100), the catch
block reverts only `heartPoints`; the in-memory `dailyStreak` stays at
the already-incremented 3 instead of reverting to its pre-operation
value 2 — so not ALL in-memory ledger state is reverted on a failed
persistence write. -/
theorem addPoints_streak_survives_failed_persist :
    (addPoints ⟨100, 5, 2⟩ ⟨some ⟨100, 5, 2, some 99⟩, some 100⟩ 5 true true 100
        true false false).1.dailyStreak = 3 ∧ (3 : Int) ≠ 2 := by
  decide

/-- Claim C3 (amended): on a failing persistence write no exception
propagates (the operations are total and return normally) and the field
being persisted is reverted to its pre-operation value: `heartPoints`
for `addPoints` (in particular `addPoints(50, false)` from balance 100
leaves 100) and for `subtractPoints`, `totalTasksCompleted` for
`incrementTasksCompleted`; but the in-memory `dailyStreak` is NOT
reverted when the streak persist of a daily-task `addPoints` fails. -/
theorem ledger_reverts_balance_on_failed_persist :
    (∀ (st : LedgerState) (store : Store) (p : Int) (d u : Bool) (t : Int)
        (f1 f3 : Bool),
      (addPoints st store p d u t f1 true f3).1.heartPoints = st.heartPoints) ∧
    (∀ (st : LedgerState) (store : Store) (p : Int) (u f3 : Bool),
      (subtractPoints st store p u true f3).2.1.heartPoints = st.heartPoints) ∧
    (∀ (st : LedgerState) (store : Store) (u : Bool),
      (incrementTasksCompleted st store u true).1.totalTasksCompleted =
        st.totalTasksCompleted) := by
  refine ⟨?_, ?_, ?_⟩
  · intro st store p d u t f1 f3
    cases u with
    | false => rw [addPoints_no_user]
    | true =>
        rw [addPoints_user]
        split
        · simp
        · rcases commitPersistMirror_write_throws st.heartPoints
              (dailyTaskPhase st store p d t f1).1 (dailyTaskPhase st store p d t f1).2.1
              (dailyTaskPhase st store p d t f1).2.2.1
              (dailyTaskPhase st store p d t f1).2.2.2.2 true f3 (Or.inr rfl) with heq
          rw [heq]
  · intro st store p u f3
    cases u with
    | false => rw [subtractPoints_no_user]
    | true =>
        by_cases hlt : st.heartPoints < p
        · rw [subtractPoints_insufficient st store p true f3 hlt]
        · rw [subtractPoints_write_throws st store p true f3 hlt (Or.inr rfl)]
  · intro st store u
    exact incrementTasksCompleted_ttc_on_throw st store u

end HeartLedger

namespace HeartLedger

theorem subtractPoints_success_full (st : LedgerState) (store : Store) (p : Int)
    (data : UserStats) (s0 : Int) (h : ¬st.heartPoints < p)
    (hst : store.stats = some data) (hlb : store.leaderboardScore = some s0) :
    subtractPoints st store p true false false =
      (true, { st with heartPoints := st.heartPoints - p },
        { stats := some { data with heartPoints := st.heartPoints - p },
          leaderboardScore := some (st.heartPoints - p) },
        [LedgerEvent.localCommit (st.heartPoints - p),
          LedgerEvent.persistPoints (st.heartPoints - p),
          LedgerEvent.mirror (st.heartPoints - p)]) := by
  rw [subtractPoints_success st store p false data h hst]
  rw [syncScoreToLeaderboard_mirrors
    { store with stats := some { data with heartPoints := st.heartPoints - p } }
    (st.heartPoints - p) s0 (by simpa using hlb)]
  simp

/-- Claim C4: with a signed-in user, `subtractPoints(points)` with
`points > heartPoints` returns `false` and changes no state (in-memory
balance, persisted record, leaderboard score and the event trace are all
untouched), for any injected failure flags; otherwise (with the store
document and leaderboard record present and the writes succeeding) it
decrements `heartPoints` by `points`, persists the decremented balance,
mirrors it to the leaderboard, and returns `true`. -/
theorem subtractPoints_no_debt (st : LedgerState) (store : Store) (p : Int)
    (data : UserStats) (s0 : Int) (f2 f3 : Bool) :
    (st.heartPoints < p →
      subtractPoints st store p true f2 f3 = (false, st, store, [])) ∧
    (¬st.heartPoints < p → store.stats = some data →
      store.leaderboardScore = some s0 →
      subtractPoints st store p true false false =
        (true, { st with heartPoints := st.heartPoints - p },
          { stats := some { data with heartPoints := st.heartPoints - p },
            leaderboardScore := some (st.heartPoints - p) },
          [LedgerEvent.localCommit (st.heartPoints - p),
            LedgerEvent.persistPoints (st.heartPoints - p),
            LedgerEvent.mirror (st.heartPoints - p)])) :=
  ⟨fun h => subtractPoints_insufficient st store p f2 f3 h,
    fun h hst hlb => subtractPoints_success_full st store p data s0 h hst hlb⟩

/-- Witness for `subtractPoints_no_debt`: refusal of 200 from balance 36
and a successful deduction of 6 from balance 36. -/
theorem subtractPoints_no_debt_witness :
    subtractPoints ⟨36, 0, 2⟩ ⟨some ⟨36, 0, 2, none⟩, some 36⟩ 200 true false false =
        (false, ⟨36, 0, 2⟩, ⟨some ⟨36, 0, 2, none⟩, some 36⟩, []) ∧
      subtractPoints ⟨36, 0, 2⟩ ⟨some ⟨36, 0, 2, none⟩, some 36⟩ 6 true false false =
        (true, ⟨30, 0, 2⟩, ⟨some ⟨30, 0, 2, none⟩, some 30⟩,
          [LedgerEvent.localCommit 30, LedgerEvent.persistPoints 30,
            LedgerEvent.mirror 30]) :=
  ⟨(subtractPoints_no_debt ⟨36, 0, 2⟩ ⟨some ⟨36, 0, 2, none⟩, some 36⟩ 200
      ⟨36, 0, 2, none⟩ 36 false false).1 (by decide),
    by
      have h := (subtractPoints_no_debt ⟨36, 0, 2⟩ ⟨some ⟨36, 0, 2, none⟩, some 36⟩ 6
        ⟨36, 0, 2, none⟩ 36 false false).2 (by decide) rfl rfl
      simpa using h⟩

/-- Claim C9: for a negative argument `k < 0` and a non-negative
balance, `subtractPoints(k)` passes the insufficient-balance check
(`heartPoints < k` is false), INCREASES `heartPoints` by `|k|`, persists
and mirrors the increased balance, and returns `true`: the public
interface has no guard requiring the subtracted amount to be
non-negative. -/
theorem subtractPoints_negative_amount (st : LedgerState) (store : Store) (k : Int)
    (data : UserStats) (s0 : Int) (hk : k < 0) (hhp : 0 ≤ st.heartPoints)
    (hst : store.stats = some data) (hlb : store.leaderboardScore = some s0) :
    subtractPoints st store k true false false =
      (true, { st with heartPoints := st.heartPoints - k },
        { stats := some { data with heartPoints := st.heartPoints - k },
          leaderboardScore := some (st.heartPoints - k) },
        [LedgerEvent.localCommit (st.heartPoints - k),
          LedgerEvent.persistPoints (st.heartPoints - k),
          LedgerEvent.mirror (st.heartPoints - k)]) ∧
      st.heartPoints < st.heartPoints - k := by
  refine ⟨subtractPoints_success_full st store k data s0 (by omega) hst hlb, by omega⟩

/-- Witness for `subtractPoints_negative_amount`: subtracting -5 from
balance 10 yields 15 everywhere and returns true. -/
theorem subtractPoints_negative_amount_witness :
    subtractPoints ⟨10, 0, 0⟩ ⟨some ⟨10, 0, 0, none⟩, some 10⟩ (-5) true false false =
        (true, ⟨15, 0, 0⟩, ⟨some ⟨15, 0, 0, none⟩, some 15⟩,
          [LedgerEvent.localCommit 15, LedgerEvent.persistPoints 15,
            LedgerEvent.mirror 15]) ∧
      (10 : Int) < 15 := by
  have h := subtractPoints_negative_amount ⟨10, 0, 0⟩ ⟨some ⟨10, 0, 0, none⟩, some 10⟩
    (-5) ⟨10, 0, 0, none⟩ 10 (by decide) (by decide) rfl rfl
  simpa using h

end HeartLedger

namespace HeartLedger

theorem addPoints_daily_new_day_full (st : LedgerState) (store : Store) (p : Int)
    (today : Int) (data : UserStats) (s0 : Int) (hp0 : 0 < p)
    (hst : store.stats = some data) (hlast : data.lastDailyTaskDate ≠ some today)
    (hlb : store.leaderboardScore = some s0) :
    addPoints st store p true true today false false false =
      ({ st with
          heartPoints := max 0 (st.heartPoints +
            calculateDailyTaskPoints (st.dailyStreak + 1)),
          dailyStreak := st.dailyStreak + 1 },
        { stats := some
            { heartPoints := max 0 (st.heartPoints +
                calculateDailyTaskPoints (st.dailyStreak + 1)),
              totalTasksCompleted := data.totalTasksCompleted,
              dailyStreak := st.dailyStreak + 1,
              lastDailyTaskDate := some today },
          leaderboardScore := some (max 0 (st.heartPoints +
            calculateDailyTaskPoints (st.dailyStreak + 1))) },
        [LedgerEvent.freshRead, LedgerEvent.persistStreak (st.dailyStreak + 1) today,
          LedgerEvent.localCommit (max 0 (st.heartPoints +
            calculateDailyTaskPoints (st.dailyStreak + 1))),
          LedgerEvent.persistPoints (max 0 (st.heartPoints +
            calculateDailyTaskPoints (st.dailyStreak + 1))),
          LedgerEvent.mirror (max 0 (st.heartPoints +
            calculateDailyTaskPoints (st.dailyStreak + 1)))]) := by
  rw [addPoints_user, dailyTaskPhase_new_day st store p today data hp0 hst hlast]
  show commitPersistMirror st.heartPoints (calculateDailyTaskPoints (st.dailyStreak + 1))
      { st with dailyStreak := st.dailyStreak + 1 }
      { store with stats := some { data with lastDailyTaskDate := some today, dailyStreak := st.dailyStreak + 1 } }
      [LedgerEvent.freshRead, LedgerEvent.persistStreak (st.dailyStreak + 1) today]
      false false = _
  rw [commitPersistMirror_success _ _ _ _ _ false
    { data with lastDailyTaskDate := some today, dailyStreak := st.dailyStreak + 1 } rfl]
  rw [syncScoreToLeaderboard_mirrors _ _ s0 (by simpa using hlb)]
  simp

theorem addPoints_daily_same_day_full (st : LedgerState) (store : Store) (p : Int)
    (today : Int) (data : UserStats) (s0 : Int) (hp0 : 0 < p)
    (hst : store.stats = some data) (hlast : data.lastDailyTaskDate = some today)
    (hlb : store.leaderboardScore = some s0) :
    addPoints st store p true true today false false false =
      ({ st with heartPoints := max 0 (st.heartPoints + DAILY_TASK_BASE_POINTS) },
        { stats := some { data with
            heartPoints := max 0 (st.heartPoints + DAILY_TASK_BASE_POINTS) },
          leaderboardScore := some (max 0 (st.heartPoints + DAILY_TASK_BASE_POINTS)) },
        [LedgerEvent.freshRead,
          LedgerEvent.localCommit (max 0 (st.heartPoints + DAILY_TASK_BASE_POINTS)),
          LedgerEvent.persistPoints (max 0 (st.heartPoints + DAILY_TASK_BASE_POINTS)),
          LedgerEvent.mirror (max 0 (st.heartPoints + DAILY_TASK_BASE_POINTS))]) := by
  rw [addPoints_user, dailyTaskPhase_same_day st store p today false data hp0 hst hlast]
  show commitPersistMirror st.heartPoints DAILY_TASK_BASE_POINTS st store
      [LedgerEvent.freshRead] false false = _
  rw [commitPersistMirror_success _ _ _ _ _ false data hst]
  rw [syncScoreToLeaderboard_mirrors _ _ s0 (by simpa using hlb)]
  simp

theorem addPoints_missing_stats (st : LedgerState) (store : Store) (p : Int)
    (today : Int) (f1 f2 f3 : Bool) (hp0 : 0 < p) (hst : store.stats = none) :
    addPoints st store p true true today f1 f2 f3 =
      (st, store,
        [LedgerEvent.freshRead,
          LedgerEvent.localCommit (max 0 (st.heartPoints + p)),
          LedgerEvent.localRevert st.heartPoints]) := by
  rw [addPoints_user, dailyTaskPhase_no_doc st store p today f1 hp0 hst]
  show commitPersistMirror st.heartPoints p st store [LedgerEvent.freshRead] f2 f3 = _
  rw [commitPersistMirror_write_throws _ _ _ _ _ f2 f3 (Or.inl hst)]
  simp

end HeartLedger

namespace HeartLedger

/-- Claim C5: starting from a state whose stored `lastDailyTaskDate` is
not today, calling `addPoints(p, isDailyTask := true)` with `p > 0`
twice on the same calendar day grants the streak-bonus calculation
(`10 + (newStreak) * 2` with the incremented streak) only on the first
call; the second call adds exactly `DAILY_TASK_BASE_POINTS = 10`
regardless of the caller-supplied points value and leaves `dailyStreak`
and the stored `lastDailyTaskDate` unchanged. -/
theorem daily_bonus_idempotent_same_day (st : LedgerState) (store : Store)
    (p1 p2 today : Int) (data : UserStats) (s0 : Int)
    (hp1 : 0 < p1) (hp2 : 0 < p2) (hhp : 0 ≤ st.heartPoints)
    (hds : 0 ≤ st.dailyStreak) (hst : store.stats = some data)
    (hlast : data.lastDailyTaskDate ≠ some today)
    (hlb : store.leaderboardScore = some s0) :
    addPoints st store p1 true true today false false false =
      (⟨st.heartPoints + (10 + (st.dailyStreak + 1) * 2), st.totalTasksCompleted,
          st.dailyStreak + 1⟩,
        ⟨some ⟨st.heartPoints + (10 + (st.dailyStreak + 1) * 2),
            data.totalTasksCompleted, st.dailyStreak + 1, some today⟩,
          some (st.heartPoints + (10 + (st.dailyStreak + 1) * 2))⟩,
        [LedgerEvent.freshRead, LedgerEvent.persistStreak (st.dailyStreak + 1) today,
          LedgerEvent.localCommit (st.heartPoints + (10 + (st.dailyStreak + 1) * 2)),
          LedgerEvent.persistPoints (st.heartPoints + (10 + (st.dailyStreak + 1) * 2)),
          LedgerEvent.mirror (st.heartPoints + (10 + (st.dailyStreak + 1) * 2))]) ∧
    addPoints (addPoints st store p1 true true today false false false).1
        (addPoints st store p1 true true today false false false).2.1 p2 true true
        today false false false =
      (⟨st.heartPoints + (10 + (st.dailyStreak + 1) * 2) + 10, st.totalTasksCompleted,
          st.dailyStreak + 1⟩,
        ⟨some ⟨st.heartPoints + (10 + (st.dailyStreak + 1) * 2) + 10,
            data.totalTasksCompleted, st.dailyStreak + 1, some today⟩,
          some (st.heartPoints + (10 + (st.dailyStreak + 1) * 2) + 10)⟩,
        [LedgerEvent.freshRead,
          LedgerEvent.localCommit (st.heartPoints + (10 + (st.dailyStreak + 1) * 2) + 10),
          LedgerEvent.persistPoints (st.heartPoints + (10 + (st.dailyStreak + 1) * 2) + 10),
          LedgerEvent.mirror (st.heartPoints + (10 + (st.dailyStreak + 1) * 2) + 10)]) := by
  have hbonus : calculateDailyTaskPoints (st.dailyStreak + 1) =
      10 + (st.dailyStreak + 1) * 2 := by
    simp [calculateDailyTaskPoints, DAILY_TASK_BASE_POINTS, STREAK_BONUS_MULTIPLIER]
  have hmax1 : max 0 (st.heartPoints + calculateDailyTaskPoints (st.dailyStreak + 1)) =
      st.heartPoints + (10 + (st.dailyStreak + 1) * 2) := by
    rw [hbonus]; exact max_eq_right (by omega)
  have h1 := addPoints_daily_new_day_full st store p1 today data s0 hp1 hst hlast hlb
  rw [hmax1] at h1
  refine ⟨h1, ?_⟩
  rw [h1]
  have h2 := addPoints_daily_same_day_full
    ⟨st.heartPoints + (10 + (st.dailyStreak + 1) * 2), st.totalTasksCompleted,
      st.dailyStreak + 1⟩
    ⟨some ⟨st.heartPoints + (10 + (st.dailyStreak + 1) * 2), data.totalTasksCompleted,
        st.dailyStreak + 1, some today⟩,
      some (st.heartPoints + (10 + (st.dailyStreak + 1) * 2))⟩
    p2 today
    ⟨st.heartPoints + (10 + (st.dailyStreak + 1) * 2), data.totalTasksCompleted,
      st.dailyStreak + 1, some today⟩
    (st.heartPoints + (10 + (st.dailyStreak + 1) * 2)) hp2 rfl rfl rfl
  simp only [DAILY_TASK_BASE_POINTS] at h2
  rw [show max 0 (st.heartPoints + (10 + (st.dailyStreak + 1) * 2) + 10) =
      st.heartPoints + (10 + (st.dailyStreak + 1) * 2) + 10 from
    max_eq_right (by omega)] at h2
  exact h2

/-- Witness for `daily_bonus_idempotent_same_day`: the spec's worked
example — from the all-zero state, `addPoints(20, true)` on day 1 gives
12 points and streak 1; the same call again on day 1 gives 22 points
with streak still 1 and the stored date still day 1. -/
theorem daily_bonus_idempotent_same_day_witness :
    addPoints ⟨0, 0, 0⟩ ⟨some ⟨0, 0, 0, none⟩, some 0⟩ 20 true true 1 false false false =
      (⟨12, 0, 1⟩, ⟨some ⟨12, 0, 1, some 1⟩, some 12⟩,
        [LedgerEvent.freshRead, LedgerEvent.persistStreak 1 1,
          LedgerEvent.localCommit 12, LedgerEvent.persistPoints 12,
          LedgerEvent.mirror 12]) ∧
    addPoints (addPoints ⟨0, 0, 0⟩ ⟨some ⟨0, 0, 0, none⟩, some 0⟩ 20 true true 1
          false false false).1
        (addPoints ⟨0, 0, 0⟩ ⟨some ⟨0, 0, 0, none⟩, some 0⟩ 20 true true 1
          false false false).2.1 20 true true 1 false false false =
      (⟨22, 0, 1⟩, ⟨some ⟨22, 0, 1, some 1⟩, some 22⟩,
        [LedgerEvent.freshRead, LedgerEvent.localCommit 22,
          LedgerEvent.persistPoints 22, LedgerEvent.mirror 22]) := by
  have h := daily_bonus_idempotent_same_day ⟨0, 0, 0⟩ ⟨some ⟨0, 0, 0, none⟩, some 0⟩
    20 20 1 ⟨0, 0, 0, none⟩ 0 (by decide) (by decide) (by decide) (by decide) rfl
    (by decide) rfl
  simpa using h

/-- Claim C6: with in-memory `dailyStreak = N`, a stored
`lastDailyTaskDate` that is not today, and a positive caller-supplied
points value, `addPoints(p, true)` sets `dailyStreak = N + 1`, persists
the new streak and `lastDailyTaskDate = today`, and adds exactly
`10 + (N + 1) * 2` points (the reward formula applied to the NEW
streak) instead of the caller-supplied `p` — in memory, in the stat
store, and on the leaderboard. -/
theorem daily_streak_continuity (st : LedgerState) (store : Store)
    (p today : Int) (data : UserStats) (s0 : Int)
    (hp0 : 0 < p) (hhp : 0 ≤ st.heartPoints) (hds : 0 ≤ st.dailyStreak)
    (hst : store.stats = some data) (hlast : data.lastDailyTaskDate ≠ some today)
    (hlb : store.leaderboardScore = some s0) :
    addPoints st store p true true today false false false =
      (⟨st.heartPoints + (10 + (st.dailyStreak + 1) * 2), st.totalTasksCompleted,
          st.dailyStreak + 1⟩,
        ⟨some ⟨st.heartPoints + (10 + (st.dailyStreak + 1) * 2),
            data.totalTasksCompleted, st.dailyStreak + 1, some today⟩,
          some (st.heartPoints + (10 + (st.dailyStreak + 1) * 2))⟩,
        [LedgerEvent.freshRead, LedgerEvent.persistStreak (st.dailyStreak + 1) today,
          LedgerEvent.localCommit (st.heartPoints + (10 + (st.dailyStreak + 1) * 2)),
          LedgerEvent.persistPoints (st.heartPoints + (10 + (st.dailyStreak + 1) * 2)),
          LedgerEvent.mirror (st.heartPoints + (10 + (st.dailyStreak + 1) * 2))]) := by
  have hbonus : calculateDailyTaskPoints (st.dailyStreak + 1) =
      10 + (st.dailyStreak + 1) * 2 := by
    simp [calculateDailyTaskPoints, DAILY_TASK_BASE_POINTS, STREAK_BONUS_MULTIPLIER]
  have hmax1 : max 0 (st.heartPoints + calculateDailyTaskPoints (st.dailyStreak + 1)) =
      st.heartPoints + (10 + (st.dailyStreak + 1) * 2) := by
    rw [hbonus]; exact max_eq_right (by omega)
  have h1 := addPoints_daily_new_day_full st store p today data s0 hp0 hst hlast hlb
  rw [hmax1] at h1
  exact h1

/-- Witness for `daily_streak_continuity`: streak 1, stored date day 1,
award on day 2 gives streak 2 and adds `10 + 2*2 = 14` points: 22 to
36, the spec's worked example. -/
theorem daily_streak_continuity_witness :
    addPoints ⟨22, 0, 1⟩ ⟨some ⟨22, 0, 1, some 1⟩, some 22⟩ 20 true true 2
        false false false =
      (⟨36, 0, 2⟩, ⟨some ⟨36, 0, 2, some 2⟩, some 36⟩,
        [LedgerEvent.freshRead, LedgerEvent.persistStreak 2 2,
          LedgerEvent.localCommit 36, LedgerEvent.persistPoints 36,
          LedgerEvent.mirror 36]) := by
  have h := daily_streak_continuity ⟨22, 0, 1⟩ ⟨some ⟨22, 0, 1, some 1⟩, some 22⟩
    20 2 ⟨22, 0, 1, some 1⟩ 22 (by decide) (by decide) (by decide) rfl (by decide) rfl
  simpa using h

/-- Claim C10 counterexample: with no `userStats` document in the store,
`addPoints(5, true)` from in-memory balance 7 does NOT leave the
caller-supplied 5 points added: the optimistic local commit of 12 is
reverted when the balance persist rejects with NotFound, so the
observable balance after the call is 7, not 12. -/
theorem addPoints_missing_stats_counterexample :
    (addPoints ⟨7, 0, 2⟩ ⟨none, some 7⟩ 5 true true 100 false false false).1.heartPoints
        = 7 ∧
      ¬(addPoints ⟨7, 0, 2⟩ ⟨none, some 7⟩ 5 true true 100
          false false false).1.heartPoints = 7 + 5 := by
  decide

/-- Claim C10 (amended): if `addPoints(p, isDailyTask := true)` with
`p > 0` runs while no `userStats` document exists, the entire
daily-bonus branch is skipped (`dailyStreak` not incremented,
`lastDailyTaskDate` not set) and the caller-supplied `p` — not the
bonus and not the flat base — is the amount committed optimistically to
the local cache; but the subsequent balance persist rejects (NotFound),
the catch block reverts the balance, and the call leaves the in-memory
state and the store entirely unchanged. -/
theorem addPoints_missing_stats_reverts (st : LedgerState) (store : Store)
    (p today : Int) (f1 f2 f3 : Bool) (hp0 : 0 < p) (hst : store.stats = none) :
    addPoints st store p true true today f1 f2 f3 =
      (st, store,
        [LedgerEvent.freshRead,
          LedgerEvent.localCommit (max 0 (st.heartPoints + p)),
          LedgerEvent.localRevert st.heartPoints]) :=
  addPoints_missing_stats st store p today f1 f2 f3 hp0 hst

/-- Witness for `addPoints_missing_stats_reverts` at the
counterexample's input. -/
theorem addPoints_missing_stats_reverts_witness :
    addPoints ⟨7, 0, 2⟩ ⟨none, some 7⟩ 5 true true 100 false false false =
      (⟨7, 0, 2⟩, ⟨none, some 7⟩,
        [LedgerEvent.freshRead, LedgerEvent.localCommit 12,
          LedgerEvent.localRevert 7]) := by
  have h := addPoints_missing_stats_reverts ⟨7, 0, 2⟩ ⟨none, some 7⟩ 5 100
    false false false (by decide) rfl
  simpa using h

end HeartLedger

namespace HeartLedger

theorem midnight_day_difference (d : JSDate) (b : Int) :
    (d.atMidnight.getTime - (JSDate.atMidnight { day := b, msOfDay := 0 }).getTime) /
        dayMs = d.day - b := by
  simp only [JSDate.atMidnight, JSDate.getTime, add_zero]
  rw [← sub_mul]
  exact Int.mul_ediv_cancel _ (by norm_num [dayMs])

/-- Claim C7: the streak evaluation run during load
(`checkAndUpdateStreak`).  With no stored date the streak is returned
unchanged (for any auth state, store and failure flag); with a stored
date whose midnight-normalised calendar-day difference from today is
strictly greater than 1, the streak resets to 0 and `dailyStreak = 0`
is persisted; with a difference of 0, 1 or negative (clock skew,
today before the stored date) the streak is returned unchanged with no
reset and no write. -/
theorem checkAndUpdateStreak_spec :
    (∀ (currentStreak : Int) (userPresent : Bool) (today : JSDate)
        (failWrite : Bool) (store : Store),
      checkAndUpdateStreak currentStreak none userPresent today failWrite store =
        some (currentStreak, store)) ∧
    (∀ (currentStreak lastDay : Int) (today : JSDate) (store : Store)
        (data : UserStats), store.stats = some data → 1 < today.day - lastDay →
      checkAndUpdateStreak currentStreak (some lastDay) true today false store =
        some (0, { store with stats := some { data with dailyStreak := 0 } })) ∧
    (∀ (currentStreak lastDay : Int) (today : JSDate) (failWrite : Bool)
        (store : Store), today.day - lastDay ≤ 1 →
      checkAndUpdateStreak currentStreak (some lastDay) true today failWrite store =
        some (currentStreak, store)) := by
  refine ⟨fun cs u today f store => rfl, ?_, ?_⟩
  · intro cs lastDay today store data hst hgap
    have hd := midnight_day_difference today lastDay
    simp [checkAndUpdateStreak, hd, hgap, statsUpdate, hst]
  · intro cs lastDay today f store hleq
    have hd := midnight_day_difference today lastDay
    have hneg : ¬(today.day - lastDay > 1) := by omega
    simp [checkAndUpdateStreak, hd, hneg]

end HeartLedger

namespace HeartLedger

/-- Witness for `checkAndUpdateStreak_spec`: null date, a 3-day gap
(reset persisted), and a negative difference (no reset). -/
theorem checkAndUpdateStreak_spec_witness :
    checkAndUpdateStreak 4 none true ⟨10, 500⟩ false ⟨some ⟨0, 0, 4, some 7⟩, none⟩ =
        some (4, ⟨some ⟨0, 0, 4, some 7⟩, none⟩) ∧
      checkAndUpdateStreak 4 (some 7) true ⟨10, 500⟩ false
          ⟨some ⟨0, 0, 4, some 7⟩, none⟩ =
        some (0, ⟨some ⟨0, 0, 0, some 7⟩, none⟩) ∧
      checkAndUpdateStreak 4 (some 12) true ⟨10, 500⟩ false
          ⟨some ⟨0, 0, 4, some 12⟩, none⟩ =
        some (4, ⟨some ⟨0, 0, 4, some 12⟩, none⟩) :=
  ⟨checkAndUpdateStreak_spec.1 4 true ⟨10, 500⟩ false _,
    by
      have h := checkAndUpdateStreak_spec.2.1 4 7 ⟨10, 500⟩
        ⟨some ⟨0, 0, 4, some 7⟩, none⟩ ⟨0, 0, 4, some 7⟩ rfl (by decide)
      simpa using h,
    checkAndUpdateStreak_spec.2.2 4 12 ⟨10, 500⟩ false _ (by decide)⟩

end HeartLedger

namespace TasksScreen

open HeartLedger (dayMs JSDate LedgerState)

/-- Claim C8: the task-reset reconciliation scan never touches the
ledger state (no `heartPoints` / `dailyStreak` / `totalTasksCompleted`
change), never resets a CUSTOM task, and flips a completed task back to
incomplete exactly when it is DAILY with a `lastCompletedDate` on a
different calendar day than today, or WEEKLY with at least 7 full days
(`7 * dayMs` milliseconds) elapsed since `lastCompletedDate`. -/
theorem checkAndResetTasks_spec :
    (∀ (now : JSDate) (ledger : LedgerState) (tasks : List Task),
      (checkAndResetTasks now ledger tasks).1 = ledger) ∧
    (∀ (now : JSDate) (task : Task),
      task.repeatType = RepeatType.CUSTOM → resetTask now task = task) ∧
    (∀ (now : JSDate) (task : Task),
      (task.completed = true ∧ (resetTask now task).completed = false) ↔
        (task.completed = true ∧ ∃ d, task.lastCompletedDate = some d ∧
          ((task.repeatType = RepeatType.DAILY ∧ d.day ≠ now.day) ∨
            (task.repeatType = RepeatType.WEEKLY ∧
              7 * dayMs ≤ now.getTime - d.getTime)))) := by
  refine ⟨fun now ledger tasks => rfl, ?_, ?_⟩
  · intro now task hCT
    rcases task with ⟨c, rt, lcd⟩
    cases hCT
    cases c <;> cases lcd <;> simp [resetTask]
  · intro now task
    rcases task with ⟨c, rt, lcd⟩
    cases c with
    | false => simp [resetTask]
    | true =>
        cases lcd with
        | none => simp [resetTask]
        | some d0 =>
            cases rt with
            | DAILY =>
                by_cases hday : d0.day = now.day <;> simp [resetTask, hday]
            | WEEKLY =>
                have harith : (7 : Int) ≤ (now.getTime - d0.getTime) / dayMs ↔
                    7 * dayMs ≤ now.getTime - d0.getTime :=
                  Int.le_ediv_iff_mul_le (by norm_num [dayMs])
                by_cases hw : (now.getTime - d0.getTime) / dayMs ≥ 7
                · simp [resetTask, hw, harith.mp hw]
                · have hnot : ¬(7 * dayMs ≤ now.getTime - d0.getTime) :=
                    fun hc => hw (harith.mpr hc)
                  simp [resetTask, hw, hnot]
            | CUSTOM => simp [resetTask]

/-- Witness for `checkAndResetTasks_spec`: a CUSTOM task is untouched
and a DAILY task completed yesterday is flipped back. -/
theorem checkAndResetTasks_spec_witness :
    resetTask ⟨10, 500⟩ ⟨true, RepeatType.CUSTOM, some ⟨0, 0⟩⟩ =
        ⟨true, RepeatType.CUSTOM, some ⟨0, 0⟩⟩ ∧
      ((⟨true, RepeatType.DAILY, some ⟨9, 0⟩⟩ : Task).completed = true ∧
        (resetTask ⟨10, 500⟩ ⟨true, RepeatType.DAILY, some ⟨9, 0⟩⟩).completed = false) :=
  ⟨checkAndResetTasks_spec.2.1 ⟨10, 500⟩ ⟨true, RepeatType.CUSTOM, some ⟨0, 0⟩⟩ rfl,
    (checkAndResetTasks_spec.2.2 ⟨10, 500⟩ ⟨true, RepeatType.DAILY, some ⟨9, 0⟩⟩).mpr
      ⟨rfl, ⟨9, 0⟩, rfl, Or.inl ⟨rfl, by decide⟩⟩⟩

end TasksScreen
